import Mathlib

/-!
Verification of the videobgremover-node composition engine.

This file gives a shallow embedding, in Lean 4, of the parts of the
TypeScript SDK that the checked properties talk about:

* `src/media/video-source.ts`  — `VideoSource.getDuration`, the `Foreground`
  class (formats, factories, `subclip`, FFmpeg input/filter generation);
* `src/media/backgrounds.ts`   — the four background variants and the
  `Background.fromColor` factory with its hex-colour validation;
* `src/media/encoders.ts`      — `EncoderProfile.args`;
* `src/media/composition.ts`   — the `Composition` builder, duration and
  canvas resolution, layer transformation filters, overlay ordering, the
  audio-mixing branches and the assembly of the final FFmpeg argv.

Conventions of the embedding:

* JavaScript numbers are modelled as `ℚ` (pixel counts that are structurally
  integers use `Nat`/`Int`).  `NaN` is not modelled; the probing layer already
  maps unparsable durations to `undefined`, which we model as `none`.
* JavaScript truthiness tests on numbers (`if (x)`) are modelled as `x ≠ 0`,
  and on optional values as a `match` on `Option`.
* `Number.prototype.toString` is modelled by `q2s`, which agrees with
  JavaScript on all integer-valued numbers (the only values the theorems
  below ever render).
* Functions that `throw` are modelled with `Except String`.
* Mutation of a `Composition` through a `LayerHandle` is modelled by pure
  update functions on the composition value.
-/

/-- JavaScript-style decimal rendering of a number.  Agrees with
`Number.prototype.toString` on every integer-valued number. -/
def q2s (q : ℚ) : String :=
  if q.den = 1 then toString q.num else toString q

/-- `Math.floor(q * 1000)` (the adelay-milliseconds computation) evaluated
exactly on the rational model: `⌊(num·1000)/den⌋` via flooring integer
division. -/
def floorMs (q : ℚ) : Int := Int.fdiv (q.num * 1000) q.den

/-- `leadsList pat l` holds when `pat` is an initial run of `l`
(character-by-character). -/
def leadsList : List Char → List Char → Bool
  | [], _ => true
  | _ :: _, [] => false
  | a :: as, b :: bs => a == b && leadsList as bs

/-- Model of JavaScript `String.prototype.startsWith`. -/
def jsStartsWith (s pat : String) : Bool :=
  leadsList pat.data s.data

/-- Model of JavaScript `String.prototype.endsWith`. -/
def jsEndsWith (s pat : String) : Bool :=
  leadsList pat.data.reverse s.data.reverse

/-- `listHas pat l`: `pat` occurs as a contiguous run somewhere in `l`. -/
def listHas (pat : List Char) : List Char → Bool
  | [] => pat.isEmpty
  | c :: rest => leadsList pat (c :: rest) || listHas pat rest

/-- Substring test (used to state "the generated string contains ..."). -/
def strContains (s pat : String) : Bool :=
  listHas pat.data s.data

/-- Model of JavaScript `String.prototype.toLowerCase` (ASCII as in paths). -/
def strToLower (s : String) : String :=
  String.mk (s.data.map Char.toLower)

/-- The run of characters of `l` starting at its LAST dot, or `none` when `l`
has no dot.  Models `path.substring(path.lastIndexOf('.'))`, whose JavaScript
result for a dotless string is the whole string (`substring(-1)` clamps
to 0); callers handle the `none` case accordingly. -/
def afterLastDot : List Char → Option (List Char)
  | [] => none
  | c :: rest =>
    match afterLastDot rest with
    | some s => some s
    | none => if c = '.' then some (c :: rest) else none

/-- Model of `new URL(p).pathname` for well-formed `http(s)://host/...`
URLs: everything from the first slash after the authority up to the query or
fragment, or `"/"` when the URL has no path. -/
def urlPathname (p : String) : String :=
  let rest := if jsStartsWith p "https://" then p.drop 8 else p.drop 7
  let tail := rest.data.dropWhile (fun c => c ≠ '/')
  match tail with
  | [] => "/"
  | l => String.mk (l.takeWhile (fun c => c ≠ '?' && c ≠ '#'))

/-- One character of `[0-9A-Fa-f]`. -/
def isHexDigitCh (c : Char) : Bool :=
  (('0' ≤ c) && (c ≤ '9')) || (('a' ≤ c) && (c ≤ 'f')) || (('A' ≤ c) && (c ≤ 'F'))

/-- The test `hexColor.match(/^#[0-9A-Fa-f]{6}$/)` from
`Background.fromColor` (src/media/backgrounds.ts). -/
def isValidHexColor (s : String) : Bool :=
  match s.data with
  | '#' :: rest => rest.length == 6 && rest.all isHexDigitCh
  | _ => false

/-- Process-wide configuration (src/media/context.ts).  Only the fields the
composition engine consults are modelled: the ffmpeg binary path and the
result of the lazily-cached `checkWebmSupport()` capability probe. -/
structure MediaContext where
  ffmpeg : String := "ffmpeg"
  webmSupport : Bool := false
  deriving Repr, DecidableEq

/-- The `TransparentFormat` tag of a `Foreground`
(src/types.ts / src/media/foreground.ts). -/
inductive TransparentFormat where
  | webmVp9
  | movProres
  | pngSequence
  | proBundle
  | stackedVideo
  deriving Repr, DecidableEq

/-- The `Foreground` class (src/media/foreground.ts).  The lazily probed
`_videoInfo` is flattened into the fields that the composition engine reads:
the parsed stream/container duration (`probedDuration`, `none` when probing
failed or the field was absent), the codec name and audio-stream presence. -/
structure Foreground where
  format : TransparentFormat
  primaryPath : String
  maskPath : Option String := none
  audioPath : Option String := none
  sourceTrim : Option (ℚ × Option ℚ) := none
  probedDuration : Option ℚ := none
  probedCodec : String := "unknown"
  probedHasAudio : Bool := false
  deriving Repr, DecidableEq

namespace Foreground

/-- `VideoSource.getDuration` (src/media/video-source.ts): the probed
duration, with JavaScript truthiness (`if (this._videoInfo.duration)`)
turning a zero duration into `undefined`. -/
def getDuration (fg : Foreground) : Option ℚ :=
  match fg.probedDuration with
  | some d => if d = 0 then none else some d
  | none => none

/-- `Foreground.subclip` (src/media/foreground.ts): a fresh instance sharing
the three locators, carrying the new trim pair; the probed `_videoInfo` is
not copied to the new instance, and the receiver is untouched. -/
def subclip (fg : Foreground) (start : ℚ) (stop : Option ℚ := none) : Foreground :=
  { format := fg.format
    primaryPath := fg.primaryPath
    maskPath := fg.maskPath
    audioPath := fg.audioPath
    sourceTrim := some (start, stop) }

/-- `Foreground._getFileExtension` (src/media/foreground.ts): for URLs the
extension of `new URL(path).pathname`, otherwise of the path itself;
`lastIndexOf('.') = -1` makes `substring` return the whole string; the result
is lower-cased. -/
def getFileExtension (p : String) : String :=
  if jsStartsWith p "http://" || jsStartsWith p "https://" then
    let pn := urlPathname p
    strToLower (match afterLastDot pn.data with | some s => String.mk s | none => pn)
  else
    strToLower (match afterLastDot p.data with | some s => String.mk s | none => p)

/-- Which per-format factory `Foreground.fromFile` dispatches to. -/
inductive FromFileRoute where
  | webmVp9Route
  | movProresRoute
  | proBundleZipRoute
  | stackedVideoRoute
  deriving Repr, DecidableEq

/-- The constant tail of the `Foreground.fromFile` error message, naming the
supported extension set. -/
def supportedFormatsText : String :=
  "Supported formats:\n  - .webm → use Foreground.fromWebmVp9()\n  - .mov  → use Foreground.fromMovProres()\n  - .mp4  → use Foreground.fromStackedVideo()\n  - .zip  → use Foreground.fromProBundleZip()\nOr use specific format methods if you know the exact format."

/-- The error text thrown by `Foreground.fromFile` for an unrecognized
extension (src/media/foreground.ts); `${extension || 'none'}` treats the
empty extension as missing. -/
def fromFileError (p ext : String) : String :=
  "Unknown video format for file: " ++ p ++ "\n" ++
  "Detected extension: " ++ (if ext = "" then "none" else ext) ++ "\n" ++
  supportedFormatsText

/-- `Foreground.fromFile` (src/media/foreground.ts), modelled up to the
choice of factory: `.webm → fromWebmVp9`, `.mov → fromMovProres`,
`.zip → fromProBundleZip` (archive extraction), `.mp4 → fromStackedVideo`,
anything else throws.  The factories themselves only attach the format tag
and probe metadata, which is environmental. -/
def fromFile (p : String) : Except String FromFileRoute :=
  let extension := getFileExtension p
  if extension = ".webm" then .ok .webmVp9Route
  else if extension = ".mov" then .ok .movProresRoute
  else if extension = ".zip" then .ok .proBundleZipRoute
  else if extension = ".mp4" then .ok .stackedVideoRoute
  else .error (fromFileError p extension)

end Foreground

/-- JavaScript object lookup rendered into a template string:
`inputMap[key]` prints as the number, or as `"undefined"` for a missing
key (which never happens on the reachable paths). -/
def imStr (m : List (String × Nat)) (k : String) : String :=
  match m.lookup k with
  | some n => toString n
  | none => "undefined"

namespace Foreground

/-- The trim-to-input-flag helper `getSourceTrimArgs` defined inline in
`Composition._buildFFmpegArgv` (src/media/composition.ts): `-ss start`, plus
`-t (end - start)` when the trim has an end. -/
def sourceTrimArgsOf (trim : Option (ℚ × Option ℚ)) : List String :=
  match trim with
  | some (start, stop) =>
    ["-ss", q2s start] ++ (match stop with
      | some e => ["-t", q2s (e - start)]
      | none => [])
  | none => []

/-- `Foreground.getFFmpegInputs` (src/media/foreground.ts): per-format input
arguments, the `inputMap` entries they introduce, and the key of the input
that carries this layer's audio.  `compositionTimingArgs` is always the empty
list in the source (timing moved to the filter graph) and is omitted here.
Returns the triple `(ffmpegArgs, inputMapUpdates, audioInputKey)`. -/
def getFFmpegInputs (fg : Foreground) (inputIdx layerIdx : Nat) (ctx : MediaContext)
    (sourceTrimArgs : List String) :
    Except String (List String × List (String × Nat) × Option String) :=
  match fg.format with
  | .webmVp9 =>
    let args :=
      (if ctx.webmSupport then ["-c:v", "libvpx-vp9"] else []) ++
      sourceTrimArgs ++ ["-i", fg.primaryPath]
    let layerKey := "layer_" ++ toString layerIdx
    .ok (args, [(layerKey, inputIdx)], some layerKey)
  | .movProres =>
    let args := sourceTrimArgs ++ ["-i", fg.primaryPath]
    let layerKey := "layer_" ++ toString layerIdx
    .ok (args, [(layerKey, inputIdx)], some layerKey)
  | .proBundle =>
    match fg.maskPath with
    | none => .error "maskPath is required for pro_bundle format"
    | some mp =>
      let rgbArgs :=
        (if getFileExtension fg.primaryPath = ".webm" && ctx.webmSupport then
          ["-c:v", "libvpx-vp9"] else []) ++
        sourceTrimArgs ++ ["-i", fg.primaryPath]
      let maskArgs := sourceTrimArgs ++ ["-i", mp]
      let args := rgbArgs ++ maskArgs
      let rgbKey := "layer_" ++ toString layerIdx ++ "_rgb"
      let maskKey := "layer_" ++ toString layerIdx ++ "_mask"
      let updates := [(rgbKey, inputIdx), (maskKey, inputIdx + 1)]
      match fg.audioPath with
      | some ap =>
        let audioKey := "layer_" ++ toString layerIdx ++ "_audio"
        .ok (args ++ sourceTrimArgs ++ ["-i", ap],
             updates ++ [(audioKey, inputIdx + 2)], some audioKey)
      | none =>
        .ok (args, updates, some rgbKey)
  | .stackedVideo =>
    let args := sourceTrimArgs ++ ["-i", fg.primaryPath]
    let layerKey := "layer_" ++ toString layerIdx ++ "_stacked"
    .ok (args, [(layerKey, inputIdx)], some layerKey)
  | .pngSequence => .error "Unknown foreground format: png_sequence"

/-- The hard binary-matte expression emitted for mask streams
(`geq='if(gte(lum(X,Y),128),255,0)'`). -/
def thresholdExpr : String :=
  "geq=\x27if(gte(lum(X,Y),128),255,0)\x27"

/-- `Foreground._getBundleFilters` (src/media/foreground.ts): RGB stream to
RGBA, mask stream to grayscale, hard binary threshold, `alphamerge`; with
alpha disabled just the RGB stream formatted as RGB. -/
def getBundleFilters (layerLabel : String) (inputMap : List (String × Nat))
    (alphaEnabled : Bool) : List String :=
  let rgbInput := "[" ++ imStr inputMap (layerLabel ++ "_rgb") ++ ":v]"
  if alphaEnabled then
    let maskInput := "[" ++ imStr inputMap (layerLabel ++ "_mask") ++ ":v]"
    [ rgbInput ++ "format=rgba[" ++ layerLabel ++ "_rgba]",
      maskInput ++ "format=gray[" ++ layerLabel ++ "_mask_gray]",
      "[" ++ layerLabel ++ "_mask_gray]" ++ thresholdExpr ++
        "[" ++ layerLabel ++ "_binary_mask]",
      "[" ++ layerLabel ++ "_rgba][" ++ layerLabel ++ "_binary_mask]alphamerge[" ++
        layerLabel ++ "_merged]" ]
  else
    [rgbInput ++ "format=rgb24[" ++ layerLabel ++ "_merged]"]

/-- `Foreground._getStackedFilters` (src/media/foreground.ts): crop the top
half, and with alpha enabled also crop the bottom half, grayscale it,
threshold it and `alphamerge` it onto the top half. -/
def getStackedFilters (layerLabel : String) (inputMap : List (String × Nat))
    (alphaEnabled : Bool) : List String :=
  let stackedInput := "[" ++ imStr inputMap (layerLabel ++ "_stacked") ++ ":v]"
  let top := stackedInput ++ "crop=iw:ih/2:0:0[" ++ layerLabel ++ "_top]"
  if alphaEnabled then
    [ top,
      "[" ++ layerLabel ++ "_top]format=rgba[" ++ layerLabel ++ "_top_rgba]",
      stackedInput ++ "crop=iw:ih/2:0:ih/2[" ++ layerLabel ++ "_bottom]",
      "[" ++ layerLabel ++ "_bottom]format=gray[" ++ layerLabel ++ "_mask_gray]",
      "[" ++ layerLabel ++ "_mask_gray]" ++ thresholdExpr ++
        "[" ++ layerLabel ++ "_binary_mask]",
      "[" ++ layerLabel ++ "_top_rgba][" ++ layerLabel ++ "_binary_mask]alphamerge[" ++
        layerLabel ++ "_merged]" ]
  else
    [top, "[" ++ layerLabel ++ "_top]format=rgb24[" ++ layerLabel ++ "_merged]"]

/-- The `layer_${layerLabel.split('_')[1]}` input-key reconstruction used by
the webm/mov filter and label methods. -/
def inputKeyOfLabel (layerLabel : String) : String :=
  "layer_" ++ (layerLabel.splitOn "_").getD 1 ""

/-- `Foreground.getFFmpegFilters` (src/media/foreground.ts): dispatch on the
format tag.  webm/mov need no normalization when alpha is on, and an
RGB-conversion step when it is off. -/
def getFFmpegFilters (fg : Foreground) (layerLabel : String)
    (inputMap : List (String × Nat)) (alphaEnabled : Bool) :
    Except String (List String) :=
  match fg.format with
  | .webmVp9 =>
    if alphaEnabled then .ok []
    else .ok ["[" ++ imStr inputMap (inputKeyOfLabel layerLabel) ++
      ":v]format=rgb24[" ++ layerLabel ++ "_merged]"]
  | .movProres =>
    if alphaEnabled then .ok []
    else .ok ["[" ++ imStr inputMap (inputKeyOfLabel layerLabel) ++
      ":v]format=rgb24[" ++ layerLabel ++ "_merged]"]
  | .proBundle => .ok (getBundleFilters layerLabel inputMap alphaEnabled)
  | .stackedVideo => .ok (getStackedFilters layerLabel inputMap alphaEnabled)
  | .pngSequence => .error "Unknown foreground format: png_sequence"

/-- `Foreground.getCurrentInputLabel` (src/media/foreground.ts). -/
def getCurrentInputLabel (fg : Foreground) (layerLabel : String)
    (alphaEnabled : Bool) : Except String String :=
  match fg.format with
  | .webmVp9 =>
    if alphaEnabled then .ok ("[" ++ inputKeyOfLabel layerLabel ++ ":v]")
    else .ok ("[" ++ layerLabel ++ "_merged]")
  | .movProres =>
    if alphaEnabled then .ok ("[" ++ inputKeyOfLabel layerLabel ++ ":v]")
    else .ok ("[" ++ layerLabel ++ "_merged]")
  | .proBundle => .ok ("[" ++ layerLabel ++ "_merged]")
  | .stackedVideo => .ok ("[" ++ layerLabel ++ "_merged]")
  | .pngSequence => .error "Unknown foreground format: png_sequence"

end Foreground

/-- The background variants (src/media/backgrounds.ts): `ColorBackground`,
`ImageBackground`, `VideoBackground`, `EmptyBackground`.  For the video
variant the probed `_videoInfo` is flattened into duration / codec /
audio-stream-presence fields, exactly as for `Foreground`. -/
inductive Background where
  | color (colorStr : String) (width height : Nat) (fps : ℚ)
      (audioEnabled : Bool) (audioVolume : ℚ)
  | image (source : String) (width height : Nat) (fps : ℚ)
      (audioEnabled : Bool) (audioVolume : ℚ)
  | video (source : String) (width height : Nat) (fps : ℚ)
      (audioEnabled : Bool) (audioVolume : ℚ)
      (sourceTrim : Option (ℚ × Option ℚ)) (probedDuration : Option ℚ)
      (probedCodec : String) (probedHasAudio : Bool)
  | empty (width height : Nat) (fps : ℚ) (audioEnabled : Bool) (audioVolume : ℚ)
  deriving Repr, DecidableEq

namespace Background

def width : Background → Nat
  | .color _ w _ _ _ _ => w
  | .image _ w _ _ _ _ => w
  | .video _ w _ _ _ _ _ _ _ _ => w
  | .empty w _ _ _ _ => w

def height : Background → Nat
  | .color _ _ h _ _ _ => h
  | .image _ _ h _ _ _ => h
  | .video _ _ h _ _ _ _ _ _ _ => h
  | .empty _ h _ _ _ => h

def fps : Background → ℚ
  | .color _ _ _ f _ _ => f
  | .image _ _ _ f _ _ => f
  | .video _ _ _ f _ _ _ _ _ _ => f
  | .empty _ _ f _ _ => f

def audioEnabled : Background → Bool
  | .color _ _ _ _ ae _ => ae
  | .image _ _ _ _ ae _ => ae
  | .video _ _ _ _ ae _ _ _ _ _ => ae
  | .empty _ _ _ ae _ => ae

def audioVolume : Background → ℚ
  | .color _ _ _ _ _ av => av
  | .image _ _ _ _ _ av => av
  | .video _ _ _ _ _ av _ _ _ _ => av
  | .empty _ _ _ _ av => av

/-- `controlsDuration()`: only the video variant controls the composition
duration. -/
def controlsDuration : Background → Bool
  | .video _ _ _ _ _ _ _ _ _ _ => true
  | _ => false

/-- `VideoBackground.getDuration` delegates to `VideoSource.getDuration`
(same truthiness handling of the raw probed duration); other variants have
no such method. -/
def getDuration : Background → Option ℚ
  | .video _ _ _ _ _ _ _ pd _ _ =>
    (match pd with
     | some d => if d = 0 then none else some d
     | none => none)
  | _ => none

/-- `hasAudio()`: video backgrounds report their probed audio streams; the
base class returns false. -/
def hasAudio : Background → Bool
  | .video _ _ _ _ _ _ _ _ _ ha => ha
  | _ => false

/-- `VideoSource.getDecoderArgs` as used by `VideoBackground`: force
`libvpx-vp9` for probed VP9 when the capability is available. -/
def getDecoderArgs (bg : Background) (ctx : MediaContext) : List String :=
  match bg with
  | .video _ _ _ _ _ _ _ _ codec _ =>
    if codec = "vp9" && ctx.webmSupport then ["-c:v", "libvpx-vp9"] else []
  | _ => []

/-- `getFFmpegInputArgs` of each background variant
(src/media/backgrounds.ts). -/
def getFFmpegInputArgs (bg : Background) (canvasWidth canvasHeight : Nat)
    (canvasFps : ℚ) (ctx : MediaContext) : List String :=
  match bg with
  | .color c _ _ _ _ _ =>
    ["-f", "lavfi", "-i",
     "color=c=" ++ c ++ ":size=" ++ toString canvasWidth ++ "x" ++
       toString canvasHeight ++ ":rate=" ++ q2s canvasFps]
  | .image src _ _ _ _ _ => ["-loop", "1", "-i", src]
  | .video src _ _ _ _ _ trim _ _ _ =>
    let decoderArgs := getDecoderArgs bg ctx
    (match trim with
     | some (start, stop) =>
       decoderArgs ++ ["-ss", q2s start] ++
       (match stop with
        | some e => ["-t", q2s (e - start)]
        | none => []) ++ ["-i", src]
     | none => decoderArgs ++ ["-i", src])
  | .empty _ _ _ _ _ =>
    ["-f", "lavfi", "-i",
     "color=c=black@0.0:size=" ++ toString canvasWidth ++ "x" ++
       toString canvasHeight ++ ":rate=" ++ q2s canvasFps]

/-- `Background.fromColor` (src/media/backgrounds.ts): the factory validates
the colour against `^#[0-9A-Fa-f]{6}$` and then calls the (unvalidating)
`ColorBackground` constructor with audio disabled. -/
def fromColor (hexColor : String) (width height : Nat) (fps : ℚ) :
    Except String Background :=
  if isValidHexColor hexColor then
    .ok (.color hexColor width height fps false 1)
  else
    .error "Color must be in hex format (#RRGGBB)"

end Background

/-- `EncoderProfile` kinds (src/media/encoders.ts). -/
inductive EncKind where
  | h264 | vp9 | transparentWebm | prores4444 | pngSeq | stackedVid
  deriving Repr, DecidableEq

/-- `EncoderProfile` (src/media/encoders.ts). -/
structure EncoderProfile where
  kind : EncKind
  crf : Option ℚ := none
  preset : Option String := none
  fps : Option ℚ := none
  deriving Repr, DecidableEq

namespace EncoderProfile

/-- `EncoderProfile.h264()` with its default crf/preset. -/
def h264Default : EncoderProfile :=
  { kind := .h264, crf := some 18, preset := some "medium" }

/-- JavaScript `this.crf || d`: missing or zero crf falls back to the
default. -/
def crfOr (e : EncoderProfile) (d : ℚ) : ℚ :=
  match e.crf with
  | some c => if c = 0 then d else c
  | none => d

/-- JavaScript `this.preset || d`: missing or empty preset falls back. -/
def presetOr (e : EncoderProfile) (d : String) : String :=
  match e.preset with
  | some p => if p = "" then d else p
  | none => d

/-- `EncoderProfile.args(outPath)` (src/media/encoders.ts). -/
def args (e : EncoderProfile) (outPath : String) : List String :=
  (match e.kind with
   | .h264 =>
     ["-c:v", "libx264", "-crf", q2s (e.crfOr 18), "-preset", e.presetOr "medium",
      "-pix_fmt", "yuv420p"]
   | .vp9 => ["-c:v", "libvpx-vp9", "-crf", q2s (e.crfOr 32), "-b:v", "0"]
   | .transparentWebm =>
     ["-c:v", "libvpx-vp9", "-crf", q2s (e.crfOr 28), "-b:v", "0",
      "-pix_fmt", "yuva420p", "-auto-alt-ref", "0"]
   | .prores4444 => ["-c:v", "prores_ks", "-profile:v", "4", "-pix_fmt", "yuva444p10le"]
   | .pngSeq =>
     ["-c:v", "png", "-pix_fmt", "rgba"] ++
     (match e.fps with
      | some f => if f = 0 then [] else ["-r", q2s f]
      | none => [])
   | .stackedVid =>
     ["-c:v", "libx264", "-crf", q2s (e.crfOr 18), "-preset", e.presetOr "medium",
      "-pix_fmt", "yuv420p"]) ++ [outPath]

end EncoderProfile

/-- Layer positioning anchors (src/types.ts `Anchor`). -/
inductive Anchor where
  | center | topLeft | topCenter | topRight
  | centerLeft | centerRight
  | bottomLeft | bottomCenter | bottomRight
  deriving Repr, DecidableEq

/-- Layer sizing modes (src/types.ts `SizeMode`). -/
inductive SizeMode where
  | contain | cover | px | canvasPercent | fitWidth | fitHeight | scaleMode
  deriving Repr, DecidableEq

/-- The `layer.size` tuple `[mode, width, height, percent, scale]` set by
`LayerHandle.size` (src/media/composition.ts). -/
structure SizeSpec where
  mode : SizeMode
  width : Option ℚ := none
  height : Option ℚ := none
  percent : Option ℚ := none
  scaleF : Option ℚ := none
  deriving Repr, DecidableEq

/-- JavaScript truthiness of an optional number. -/
def truthyQ : Option ℚ → Bool
  | some q => !(q == 0)
  | none => false

/-- The `LayerDict` record stored in `Composition._layers`
(src/types.ts / src/media/composition.ts). -/
structure LayerDict where
  name : String
  fg : Foreground
  anchor : Anchor
  dx : ℚ
  dy : ℚ
  x_expr : Option String := none
  y_expr : Option String := none
  size : SizeSpec
  opacity : ℚ
  rotateDeg : ℚ
  crop : Option (ℚ × ℚ × ℚ × ℚ) := none
  comp_start : Option ℚ := none
  comp_end : Option ℚ := none
  comp_duration : Option ℚ := none
  source_trim : Option (ℚ × Option ℚ) := none
  audio_enabled : Bool
  audio_volume : ℚ
  alpha_enabled : Bool
  z : Int
  deriving Repr, DecidableEq

namespace Media

/-- The `Composition` builder state (src/media/composition.ts).  (Inside the
`Media` namespace because Mathlib already has a `Composition`.) -/
structure Composition where
  ctx : MediaContext := {}
  background : Option Background := none
  layers : List LayerDict := []
  canvasHint : Option (Nat × Nat × ℚ) := none
  explicitDuration : Option ℚ := none
  deriving Repr, DecidableEq

/-- In-place update of the idx-th element, a no-op when out of range — the
`const layer = this.comp._layers[this.idx]; if (layer) {...}` pattern of
every `LayerHandle` method. -/
def modifyNth (f : α → α) : Nat → List α → List α
  | _, [] => []
  | 0, a :: as => f a :: as
  | n + 1, a :: as => a :: modifyNth f n as

/-- `Math.max(0, Math.min(1, v))` clamping used for opacity and volume. -/
def clamp01 (v : ℚ) : ℚ := max 0 (min 1 v)

namespace Composition

/-- `Composition.add` (src/media/composition.ts): append a `LayerDict` with
the documented defaults; `name || `layer${n}`` treats the empty string as
missing.  The handle it returns is modelled as the index
`c.layers.length`. -/
def add (c : Composition) (fg : Foreground) (name : Option String := none) :
    Composition :=
  let layerName :=
    match name with
    | some n => if n = "" then "layer" ++ toString c.layers.length else n
    | none => "layer" ++ toString c.layers.length
  let layer : LayerDict :=
    { name := layerName
      fg := fg
      anchor := .center
      dx := 0
      dy := 0
      size := { mode := .contain }
      opacity := 1
      rotateDeg := 0
      audio_enabled := true
      audio_volume := 1
      alpha_enabled := true
      z := c.layers.length }
  { c with layers := c.layers ++ [layer] }

/-- `Composition.setDuration`: a copy carrying the explicit override. -/
def setDuration (c : Composition) (seconds : ℚ) : Composition :=
  { c with explicitDuration := some seconds }

/-- `Composition.setCanvas`: a copy carrying the explicit canvas hint. -/
def setCanvas (c : Composition) (width height : Nat) (fps : ℚ) : Composition :=
  { c with canvasHint := some (width, height, fps) }

/-- `LayerHandle.start`. -/
def layerStart (c : Composition) (idx : Nat) (seconds : ℚ) : Composition :=
  { c with layers := modifyNth (fun l => { l with comp_start := some seconds }) idx c.layers }

/-- `LayerHandle.audio` (volume clamped to [0,1]). -/
def layerAudio (c : Composition) (idx : Nat) (enabled : Bool) (volume : ℚ) :
    Composition :=
  let upd := fun (l : LayerDict) =>
    { l with audio_enabled := enabled, audio_volume := clamp01 volume }
  { c with layers := modifyNth upd idx c.layers }

/-- `LayerHandle.z`. -/
def layerZ (c : Composition) (idx : Nat) (zIndex : Int) : Composition :=
  { c with layers := modifyNth (fun l => { l with z := zIndex }) idx c.layers }

/-- The canvas-size error message of `Composition._getCanvasSize`. -/
def canvasError : String :=
  "Cannot determine canvas size. Please provide a background " ++
  "(Background.fromImage/fromVideo/fromColor) or set explicit canvas dimensions " ++
  "using Composition.canvas() or .setCanvas()."

/-- `Composition._getCanvasSize`: background dimensions (when all three are
truthy), else the explicit hint, else a hard error. -/
def getCanvasSize (c : Composition) : Except String (Nat × Nat × ℚ) :=
  let fallback : Except String (Nat × Nat × ℚ) :=
    match c.canvasHint with
    | some hint => .ok hint
    | none => .error canvasError
  match c.background with
  | some bg =>
    if bg.width ≠ 0 ∧ bg.height ≠ 0 ∧ bg.fps ≠ 0 then .ok (bg.width, bg.height, bg.fps)
    else fallback
  | none => fallback

/-- One iteration of the `_getLongestForegroundDuration` loop: the
`fgDuration && fgDuration > maxDuration` guard skips missing, zero and
non-increasing values. -/
def durStep (m : ℚ) (l : LayerDict) : ℚ :=
  match Foreground.getDuration l.fg with
  | some d => if d ≠ 0 ∧ m < d then d else m
  | none => m

/-- `Composition._getLongestForegroundDuration`: fold the layers' probed
durations into a running maximum, then map a final 0 to `undefined`. -/
def getLongestForegroundDuration (layers : List LayerDict) : Option ℚ :=
  let maxDuration := layers.foldl durStep 0
  if 0 < maxDuration then some maxDuration else none

/-- `Composition._getCompositionDuration`: explicit override first, then a
duration-controlling background with a positive probed duration, then the
longest foreground duration. -/
def getCompositionDuration (c : Composition) : Option ℚ :=
  match c.explicitDuration with
  | some d => some d
  | none =>
    match c.background with
    | some bg =>
      if bg.controlsDuration then
        match bg.getDuration with
        | some bd =>
          if bd ≠ 0 ∧ 0 < bd then some bd
          else getLongestForegroundDuration c.layers
        | none => getLongestForegroundDuration c.layers
      else getLongestForegroundDuration c.layers
    | none => getLongestForegroundDuration c.layers

/-- The duration-limit segment of `Composition._buildFFmpegArgv`:
`if (compDuration) argv.push('-t', compDuration.toString())` — JavaScript
truthiness, so a resolved duration of 0 emits nothing. -/
def durationLimitArgs (c : Composition) : List String :=
  match getCompositionDuration c with
  | some d => if d ≠ 0 then ["-t", q2s d] else []
  | none => []

/-- `Composition._getAspectRatioConstraint` (src/media/composition.ts). -/
def getAspectRatioConstraint : SizeMode → Option String
  | .canvasPercent | .px | .contain | .fitWidth | .fitHeight => some "decrease"
  | .cover => some "increase"
  | .scaleMode => none

/-- `Composition._calculateTargetDimensions` (CANVAS_PERCENT box, floored;
`percent || 100` treats a zero percent as missing). -/
def calculateTargetDimensions (sz : SizeSpec) (canvasWidth canvasHeight : Nat) :
    Int × Int :=
  if sz.mode ≠ .canvasPercent then ((canvasWidth : Int), (canvasHeight : Int))
  else
    let pctOr : ℚ :=
      match sz.percent with
      | some p => if p = 0 then 100 else p
      | none => 100
    match sz.width, sz.height with
    | some w, some h =>
      (⌊((canvasWidth : ℚ) * w) / 100⌋, ⌊((canvasHeight : ℚ) * h) / 100⌋)
    | some w, none =>
      (⌊((canvasWidth : ℚ) * w) / 100⌋, ⌊((canvasHeight : ℚ) * pctOr) / 100⌋)
    | none, some h =>
      (⌊((canvasWidth : ℚ) * pctOr) / 100⌋, ⌊((canvasHeight : ℚ) * h) / 100⌋)
    | none, none =>
      match sz.percent with
      | some p => (⌊((canvasWidth : ℚ) * p) / 100⌋, ⌊((canvasHeight : ℚ) * p) / 100⌋)
      | none => ((canvasWidth : Int), (canvasHeight : Int))

end Composition

namespace Composition

/-- The `${dx >= 0 ? '+' : ''}${dx}` offset rendering of
`_calculateOverlayPosition`. -/
def offTail (d : ℚ) : String :=
  (if d ≥ 0 then "+" else "") ++ q2s d

/-- `dx !== 0 ? base+offset : base`. -/
def withOff (base : String) (d : ℚ) : String :=
  if d ≠ 0 then base ++ offTail d else base

/-- `Composition._calculateOverlayPosition` (src/media/composition.ts):
explicit expression escape hatch first; CANVAS_PERCENT positions the target
box and then aligns the rendered video inside it; all other modes position by
the rendered dimensions `w`/`h`. -/
def calculateOverlayPosition (layer : LayerDict) (canvasWidth canvasHeight : Nat) :
    String :=
  let xeOk := match layer.x_expr with | some s => s ≠ "" | none => false
  let yeOk := match layer.y_expr with | some s => s ≠ "" | none => false
  if xeOk && yeOk then
    "x=\x27" ++ layer.x_expr.getD "" ++ "\x27:y=\x27" ++ layer.y_expr.getD "" ++ "\x27"
  else
    let useTargetBox := layer.size.mode = SizeMode.canvasPercent
    if useTargetBox then
      let td := calculateTargetDimensions layer.size canvasWidth canvasHeight
      let tw := toString td.1
      let th := toString td.2
      let xBase :=
        match layer.anchor with
        | .topLeft | .centerLeft | .bottomLeft => "0"
        | .topRight | .centerRight | .bottomRight => "W-" ++ tw
        | .topCenter | .center | .bottomCenter => "(W-" ++ tw ++ ")/2"
      let yBase :=
        match layer.anchor with
        | .topLeft | .topCenter | .topRight => "0"
        | .bottomLeft | .bottomCenter | .bottomRight => "H-" ++ th
        | .centerLeft | .center | .centerRight => "(H-" ++ th ++ ")/2"
      let xExpr := withOff xBase layer.dx
      let yExpr := withOff yBase layer.dy
      let xExpr :=
        match layer.anchor with
        | .topRight | .centerRight | .bottomRight =>
          "(" ++ xExpr ++ ")+(" ++ tw ++ "-w)"
        | .topCenter | .center | .bottomCenter =>
          "(" ++ xExpr ++ ")+(" ++ tw ++ "-w)/2"
        | _ => xExpr
      let yExpr :=
        match layer.anchor with
        | .bottomLeft | .bottomCenter | .bottomRight =>
          "(" ++ yExpr ++ ")+(" ++ th ++ "-h)"
        | .centerLeft | .center | .centerRight =>
          "(" ++ yExpr ++ ")+(" ++ th ++ "-h)/2"
        | _ => yExpr
      "x=\x27" ++ xExpr ++ "\x27:y=\x27" ++ yExpr ++ "\x27"
    else
      let xBase :=
        match layer.anchor with
        | .topLeft | .centerLeft | .bottomLeft => "0"
        | .topRight | .centerRight | .bottomRight => "W-w"
        | .topCenter | .center | .bottomCenter => "(W-w)/2"
      let yBase :=
        match layer.anchor with
        | .topLeft | .topCenter | .topRight => "0"
        | .bottomLeft | .bottomCenter | .bottomRight => "H-h"
        | .centerLeft | .center | .centerRight => "(H-h)/2"
      "x=\x27" ++ withOff xBase layer.dx ++ "\x27:y=\x27" ++ withOff yBase layer.dy ++ "\x27"

/-- The scale-step target dimensions and applicability computed by
`_getLayerTransformationFilters`: `(scaleApplied, targetW, targetH)` as the
strings that end up in the `scale=` filter.  PX without truthy explicit
dimensions matches no branch (`scaleApplied` stays false); SCALE picks its
factors by `!== undefined` checks in source order. -/
def scaleTarget (sz : SizeSpec) (canvasWidth canvasHeight : Nat) :
    Bool × String × String :=
  match sz.mode with
  | .px =>
    if truthyQ sz.width ∧ truthyQ sz.height then
      (true, q2s (sz.width.getD 0), q2s (sz.height.getD 0))
    else (false, "iw", "ih")
  | .canvasPercent =>
    let td := calculateTargetDimensions sz canvasWidth canvasHeight
    (true, toString td.1, toString td.2)
  | .contain => (true, toString canvasWidth, toString canvasHeight)
  | .cover => (true, toString canvasWidth, toString canvasHeight)
  | .fitWidth => (true, toString canvasWidth, "-1")
  | .fitHeight => (true, "-1", toString canvasHeight)
  | .scaleMode =>
    match sz.width, sz.height with
    | some w, some h => (true, "iw*" ++ q2s w, "ih*" ++ q2s h)
    | some w, none =>
      (match sz.scaleF with
       | some f => (true, "iw*" ++ q2s f, "ih*" ++ q2s f)
       | none => (true, "iw*" ++ q2s w, "ih*" ++ q2s w))
    | none, some h =>
      (match sz.scaleF with
       | some f => (true, "iw*" ++ q2s f, "ih*" ++ q2s f)
       | none => (true, "iw*" ++ q2s h, "ih*" ++ q2s h))
    | none, none =>
      (match sz.scaleF with
       | some f => (true, "iw*" ++ q2s f, "ih*" ++ q2s f)
       | none => (true, "iw", "ih"))

/-- `Composition._getLayerTransformationFilters` (src/media/composition.ts):
the imperative chain — timeline shift, crop, scale, rotate, opacity — each
threading `currentOutput` into the next freshly-labelled intermediate, with a
final `null` step renaming to `[layer_i_final]` whenever any filter was
emitted. -/
def getLayerTransformationFilters (layer : LayerDict) (layerIdx : Nat)
    (currentInput : String) (canvasWidth canvasHeight : Nat) : List String :=
  let layerLabel := "layer_" ++ toString layerIdx
  -- (a) timeline shift: `if (compStart && compStart > 0)` — truthiness of the
  -- optional number and the positivity test
  let tFired : Bool :=
    match layer.comp_start with
    | some s => decide (s ≠ 0 ∧ 0 < s)
    | none => false
  let st1 : List String × String :=
    if tFired then
      let nl := "[" ++ layerLabel ++ "_timed]"
      ([currentInput ++ "setpts=PTS-STARTPTS,setpts=PTS+" ++
        q2s (layer.comp_start.getD 0) ++ "/TB" ++ nl], nl)
    else ([], currentInput)
  -- (b) crop
  let st2 : List String × String :=
    match layer.crop with
    | some (x, y, w, h) =>
      let nl := "[" ++ layerLabel ++ "_crop]"
      (st1.1 ++ [st1.2 ++ "crop=" ++ q2s w ++ ":" ++ q2s h ++ ":" ++ q2s x ++ ":" ++
        q2s y ++ nl], nl)
    | none => st1
  -- (c) scale
  let aspect := getAspectRatioConstraint layer.size.mode
  let sc := scaleTarget layer.size canvasWidth canvasHeight
  let st3 : List String × String :=
    if sc.1 then
      let nl := "[" ++ layerLabel ++ "_scale]"
      let scaleParams := sc.2.1 ++ ":" ++ sc.2.2 ++
        (match aspect with
         | some a => ":force_original_aspect_ratio=" ++ a
         | none => "")
      (st2.1 ++ [st2.2 ++ "scale=" ++ scaleParams ++ nl], nl)
    else st2
  -- (d) rotate
  let st4 : List String × String :=
    if layer.rotateDeg ≠ 0 then
      let nl := "[" ++ layerLabel ++ "_rotate]"
      (st3.1 ++ [st3.2 ++ "rotate=" ++ q2s layer.rotateDeg ++ "*PI/180" ++ nl], nl)
    else st3
  -- (e) opacity
  let st5 : List String × String :=
    if layer.opacity ≠ 1 then
      let nl := "[" ++ layerLabel ++ "_opacity]"
      (st4.1 ++ [st4.2 ++ "colorchannelmixer=aa=" ++ q2s layer.opacity ++ nl], nl)
    else st4
  -- final relabelling to `[layer_i_final]`
  if st5.1 ≠ [] then
    if jsEndsWith st5.2 ("[layer_" ++ toString layerIdx ++ "_final]") then st5.1
    else st5.1 ++ [st5.2 ++ "null[" ++ layerLabel ++ "_final]"]
  else st5.1

end Composition

/-- Whether an `AudioInput` came from a layer's foreground or from the
background (the `type` field in src/media/composition.ts). -/
inductive AudioKind where
  | fgKind | bgKind
  deriving Repr, DecidableEq

/-- One collected audio source (`AudioInput` in src/types.ts). -/
structure AudioInput where
  input : String
  volume : ℚ
  kind : AudioKind
  layerIndex : Option Nat := none
  deriving Repr, DecidableEq

namespace Composition

/-- The per-layer input-collection loop of `_buildFFmpegArgv` (step 2 of the
graph build): accumulate each foreground's input arguments (in original
add-order), merge its `inputMap` updates, recompute `inputIdx` as
`max(values) + 1`, and record an `AudioInput` for every audio-enabled layer
whose audio key landed in the map. -/
def inputsLoop (ctx : MediaContext) :
    List (Nat × LayerDict) → List String → List (String × Nat) → Nat →
    List AudioInput →
    Except String (List String × List (String × Nat) × Nat × List AudioInput)
  | [], argv, im, idx, ai => .ok (argv, im, idx, ai)
  | (i, layer) :: rest, argv, im, idx, ai => do
    let trimArgs := Foreground.sourceTrimArgsOf layer.fg.sourceTrim
    let res ← layer.fg.getFFmpegInputs idx i ctx trimArgs
    let args := res.1
    let updates := res.2.1
    let audioKey := res.2.2
    let im2 := im ++ updates
    let idx2 := ((im2.map Prod.snd).foldl max 0) + 1
    let ai2 :=
      if layer.audio_enabled then
        match audioKey with
        | some k =>
          match im2.lookup k with
          | some n =>
            ai ++ [{ input := toString n ++ ":a", volume := layer.audio_volume,
                     kind := .fgKind, layerIndex := some i }]
          | none => ai
        | none => ai
      else ai
    inputsLoop ctx rest (argv ++ args) im2 idx2 ai2

/-- Stable insertion for the z-sort: a new element goes after every element
whose z is ≤ its own, which is exactly a stable ascending sort — the
behaviour of `Array.prototype.sort((a, b) => a.layer.z - b.layer.z)`
(stable per ES2019). -/
def insertByZ (x : Nat × LayerDict) : List (Nat × LayerDict) → List (Nat × LayerDict)
  | [] => [x]
  | y :: ys => if y.2.z ≤ x.2.z then y :: insertByZ x ys else x :: y :: ys

/-- The z-sort of step 3: layers paired with their original add-index,
ordered by z ascending, ties keeping add-order. -/
def sortLayersByZ (l : List (Nat × LayerDict)) : List (Nat × LayerDict) :=
  l.foldl (fun acc x => insertByZ x acc) []

/-- The per-layer compositing loop of `_buildFFmpegArgv` (steps 4–5): for
each z-sorted layer emit its normalization filters, its transformation chain
and its overlay onto the running stream; every non-final layer writes
`[tmpN]`, the final one writes `[out]`.  (`layerIdx === sortedLayers.length
- 1` is met exactly when the remainder list is empty.) -/
def videoLoop (im : List (String × Nat)) (canvasWidth canvasHeight : Nat) :
    List (Nat × LayerDict) → Nat → String → Except String (List String)
  | [], _, _ => .ok []
  | (originalIndex, layer) :: rest, layerIdx, currentOutput => do
    let layerLabel := "layer_" ++ toString originalIndex
    let formatFilters ← layer.fg.getFFmpegFilters layerLabel im layer.alpha_enabled
    let direct := "[" ++ imStr im ("layer_" ++ toString originalIndex) ++ ":v]"
    let layerOutput ←
      if formatFilters.length > 0 then
        layer.fg.getCurrentInputLabel layerLabel layer.alpha_enabled
      else pure direct
    let transforms :=
      getLayerTransformationFilters layer originalIndex layerOutput canvasWidth canvasHeight
    let layerOutput :=
      if transforms.length > 0 then "[layer_" ++ toString originalIndex ++ "_final]"
      else layerOutput
    let positionParams := calculateOverlayPosition layer canvasWidth canvasHeight
    let overlayParams := "=" ++ positionParams ++ ":eof_action=pass"
    match rest with
    | [] =>
      .ok (formatFilters ++ transforms ++
        [currentOutput ++ layerOutput ++ "overlay" ++ overlayParams ++ "[out]"])
    | _ :: _ =>
      let tempOutput := "[tmp" ++ toString layerIdx ++ "]"
      let restParts ← videoLoop im canvasWidth canvasHeight rest (layerIdx + 1) tempOutput
      .ok (formatFilters ++ transforms ++
        [currentOutput ++ layerOutput ++ "overlay" ++ overlayParams ++ tempOutput] ++
        restParts)

/-- `layer.comp_start || 0` for the layer at `layerIdx`, guarded by
`layerIdx < this._layers.length` as in the source. -/
def compStartAt (c : Composition) (layerIdx : Nat) : ℚ :=
  if layerIdx < c.layers.length then
    match c.layers.get? layerIdx with
    | some layer => layer.comp_start.getD 0
    | none => 0
  else 0

/-- The multiple-audio-sources branch of `_buildFFmpegArgv`: per source,
`layerIdx = audioInput.layerIndex || i` (JavaScript `||`, so an undefined —
background — or zero index falls back to the loop position), optional
`adelay`, optional `volume`, collecting the processed labels. -/
def multiAudioLoop (c : Composition) :
    List (Nat × AudioInput) → List String × List String
  | [] => ([], [])
  | (i, a) :: rest =>
    let layerIdx :=
      match a.layerIndex with
      | some n => if n = 0 then i else n
      | none => i
    let compStart := compStartAt c layerIdx
    let cur := "[" ++ a.input ++ "]"
    let st1 : List String × String :=
      if 0 < compStart then
        let delayMs := floorMs compStart
        let nl := "[audio_delayed_" ++ toString i ++ "]"
        ([cur ++ "adelay=" ++ toString delayMs ++ "|" ++ toString delayMs ++ nl], nl)
      else ([], cur)
    let st2 : List String × String :=
      if a.volume ≠ 1 then
        let nl := "[audio_vol_" ++ toString i ++ "]"
        (st1.1 ++ [st1.2 ++ "volume=" ++ q2s a.volume ++ nl], nl)
      else st1
    let restRes := multiAudioLoop c rest
    (st2.1 ++ restRes.1, st2.2 :: restRes.2)

/-- The audio section of `_buildFFmpegArgv` (step 6): zero sources map `-an`;
one source is passed through, or delayed/volume-adjusted in the filter graph;
two or more are individually processed and mixed with
`amix=inputs=N:duration=longest`.  Returns `(audioFilterParts,
audioMapArgs)`. -/
def buildAudio (c : Composition) (audioInputs : List AudioInput) :
    List String × List String :=
  match audioInputs with
  | [] => ([], ["-an"])
  | [a] =>
    let needsInfo : Bool × ℚ :=
      if a.kind = .fgKind then
        match a.layerIndex with
        | some li =>
          if li < c.layers.length then
            match c.layers.get? li with
            | some layer =>
              let cs := layer.comp_start.getD 0
              (decide (0 < cs), cs)
            | none => (false, 0)
          else (false, 0)
        | none => (false, 0)
      else (false, 0)
    let needsDelay := needsInfo.1
    let compStart := needsInfo.2
    if needsDelay || a.volume ≠ 1 then
      let cur := "[" ++ a.input ++ "]"
      let st1 : List String × String :=
        if needsDelay then
          let delayMs := floorMs compStart
          ([cur ++ "adelay=" ++ toString delayMs ++ "|" ++ toString delayMs ++
            "[audio_delayed]"], "[audio_delayed]")
        else ([], cur)
      let st2 : List String :=
        if a.volume ≠ 1 then
          st1.1 ++ [st1.2 ++ "volume=" ++ q2s a.volume ++ "[audio_out]"]
        else if st1.2 ≠ "[audio_out]" then
          st1.1 ++ [st1.2 ++ "anull[audio_out]"]
        else st1.1
      (st2, ["-map", "[audio_out]"])
    else
      ([], ["-map", a.input ++ "?"])
  | _ :: _ :: _ =>
    let res := multiAudioLoop c audioInputs.enum
    let amixFilter := String.join res.2 ++ "amix=inputs=" ++
      toString res.2.length ++ ":duration=longest[audio_out]"
    (res.1 ++ [amixFilter], ["-map", "[audio_out]"])

/-- `Composition._buildFFmpegArgv` (src/media/composition.ts), for the
non-streaming export path (`toPipe = false`): canvas resolution, background
input, layer inputs in add-order, the video filter graph in z-order, the
audio section, the stream maps, the truthiness-guarded duration limit, the
encoder arguments and the output path. -/
def buildFFmpegArgv (c : Composition) (outPath : String) (encoder : EncoderProfile) :
    Except String (List String) := do
  let canvas ← c.getCanvasSize
  let canvasWidth := canvas.1
  let canvasHeight := canvas.2.1
  let canvasFps := canvas.2.2
  let argv0 := [c.ctx.ffmpeg, "-y"]
  let bgArgs :=
    match c.background with
    | some bg => bg.getFFmpegInputArgs canvasWidth canvasHeight canvasFps c.ctx
    | none =>
      ["-f", "lavfi", "-i",
       "color=c=black@0.0:size=" ++ toString canvasWidth ++ "x" ++
         toString canvasHeight ++ ":rate=" ++ q2s canvasFps]
  let im0 : List (String × Nat) := [("background", 0)]
  let collected ← inputsLoop c.ctx c.layers.enum [] im0 1 []
  let layerArgs := collected.1
  let im := collected.2.1
  let fgAudio := collected.2.2.2
  let sorted := sortLayersByZ c.layers.enum
  let videoParts ← videoLoop im canvasWidth canvasHeight sorted 0
    ("[" ++ imStr im "background" ++ ":v]")
  let videoMapArgs :=
    if videoParts.length > 0 then ["-map", "[out]"]
    else ["-map", imStr im "background" ++ ":v"]
  let audioInputs :=
    match c.background with
    | some bg =>
      if bg.audioEnabled && bg.hasAudio then
        fgAudio ++ [{ input := imStr im "background" ++ ":a",
                      volume := bg.audioVolume, kind := .bgKind }]
      else fgAudio
    | none => fgAudio
  let audioRes := buildAudio c audioInputs
  let allFilterParts := videoParts ++ audioRes.1
  let fcArgs :=
    if allFilterParts.length > 0 then
      ["-filter_complex", String.intercalate ";" allFilterParts]
    else []
  let ea := encoder.args outPath
  let outTail :=
    match ea.getLast? with
    | some p => if p = "" then [] else [p]
    | none => []
  .ok (argv0 ++ bgArgs ++ layerArgs ++ fcArgs ++ videoMapArgs ++ audioRes.2 ++
    durationLimitArgs c ++ ea.dropLast ++ outTail)

/-- The video-filter-part list of a composition on its own (steps 3–5 of the
graph build), used to state ordering properties of the instruction stream. -/
def videoFilterParts (c : Composition) (canvasWidth canvasHeight : Nat) :
    Except String (List String) := do
  let im0 : List (String × Nat) := [("background", 0)]
  let collected ← inputsLoop c.ctx c.layers.enum [] im0 1 []
  let im := collected.2.1
  let sorted := sortLayersByZ c.layers.enum
  videoLoop im canvasWidth canvasHeight sorted 0 ("[" ++ imStr im "background" ++ ":v]")

/-- The audio-filter-part list and audio map of a composition on its own
(step 6), used to state the audio-mixing properties. -/
def audioSection (c : Composition) : Except String (List String × List String) := do
  let im0 : List (String × Nat) := [("background", 0)]
  let collected ← inputsLoop c.ctx c.layers.enum [] im0 1 []
  let im := collected.2.1
  let fgAudio := collected.2.2.2
  let audioInputs :=
    match c.background with
    | some bg =>
      if bg.audioEnabled && bg.hasAudio then
        fgAudio ++ [{ input := imStr im "background" ++ ":a",
                      volume := bg.audioVolume, kind := .bgKind }]
      else fgAudio
    | none => fgAudio
  .ok (buildAudio c audioInputs)

end Composition

namespace Composition

/-- The per-layer transformation chain as specified: optional steps in the
fixed order timeline-shift, crop, scale, rotate, opacity — each a single
filter reading the previous step's output label and writing a fresh
`[layer_i_<step>]` label — followed by a `null` relabelling to
`[layer_i_final]` whenever at least one step fired.  This is the
specification-side description that `getLayerTransformationFilters` is
proved to refine. -/
def transformChainSpec (layer : LayerDict) (layerIdx : Nat)
    (currentInput : String) (canvasWidth canvasHeight : Nat) : List String :=
  let lbl := "layer_" ++ toString layerIdx
  let tF : Bool :=
    match layer.comp_start with
    | some s => decide (0 < s)
    | none => false
  let cF : Bool := layer.crop.isSome
  let sc := scaleTarget layer.size canvasWidth canvasHeight
  let sF : Bool := sc.1
  let rF : Bool := decide (layer.rotateDeg ≠ 0)
  let oF : Bool := decide (layer.opacity ≠ 1)
  let out1 := "[" ++ lbl ++ "_timed]"
  let in1 := if tF then out1 else currentInput
  let out2 := "[" ++ lbl ++ "_crop]"
  let in2 := if cF then out2 else in1
  let out3 := "[" ++ lbl ++ "_scale]"
  let in3 := if sF then out3 else in2
  let out4 := "[" ++ lbl ++ "_rotate]"
  let in4 := if rF then out4 else in3
  let out5 := "[" ++ lbl ++ "_opacity]"
  let in5 := if oF then out5 else in4
  let seg1 :=
    if tF then
      [currentInput ++ "setpts=PTS-STARTPTS,setpts=PTS+" ++
        q2s (layer.comp_start.getD 0) ++ "/TB" ++ out1]
    else []
  let seg2 :=
    match layer.crop with
    | some (x, y, w, h) =>
      [in1 ++ "crop=" ++ q2s w ++ ":" ++ q2s h ++ ":" ++ q2s x ++ ":" ++ q2s y ++ out2]
    | none => []
  let seg3 :=
    if sF then
      [in2 ++ "scale=" ++ sc.2.1 ++ ":" ++ sc.2.2 ++
        (match getAspectRatioConstraint layer.size.mode with
         | some a => ":force_original_aspect_ratio=" ++ a
         | none => "") ++ out3]
    else []
  let seg4 :=
    if rF then [in3 ++ "rotate=" ++ q2s layer.rotateDeg ++ "*PI/180" ++ out4] else []
  let seg5 :=
    if oF then [in4 ++ "colorchannelmixer=aa=" ++ q2s layer.opacity ++ out5] else []
  let segF :=
    if tF || cF || sF || rF || oF then
      [in5 ++ "null[" ++ lbl ++ "_final]"]
    else []
  seg1 ++ seg2 ++ seg3 ++ seg4 ++ seg5 ++ segF

end Composition

end Media

/-! Concrete scenario values used by the theorems below. -/

/-- A webm-vp9 foreground with a given probed duration. -/
def webmFg (p : String) (dur : Option ℚ := none) : Foreground :=
  { format := .webmVp9, primaryPath := p, probedDuration := dur }

/-- A video background probed at 1920×1080@30 with duration 20s and no audio
stream. -/
def videoBg20 : Background :=
  .video "bg.mp4" 1920 1080 30 true 1 none (some 20) "h264" false

/-- A `#FF0000` colour background at 1920×1080@30 (what
`Background.fromColor` constructs). -/
def colorBgRed : Background := .color "#FF0000" 1920 1080 30 false 1

/-- Duration-priority scenario: a video background of duration 20 over two
layers of durations 5 and 3. -/
def durDemoBase : Media.Composition :=
  let c : Media.Composition := { background := some videoBg20 }
  let c := c.add (webmFg "a.webm" (some 5))
  c.add (webmFg "b.webm" (some 3))

/-- The same scenario with an explicit `setDuration(7)` override. -/
def durDemoExplicit : Media.Composition := durDemoBase.setDuration 7

/-- The same layers over a colour background (no duration-controlling
background). -/
def durDemoColor : Media.Composition := { durDemoBase with background := some colorBgRed }

/-- A composition whose only duration source is an explicit negative
override: a colour background, no layers, `setDuration(-1)`. -/
def durDemoNeg : Media.Composition :=
  Media.Composition.setDuration { background := some colorBgRed } (-1)

/-- A video background that has a probed audio stream (audio enabled by
default for video backgrounds). -/
def videoBgAudio : Background :=
  .video "bg.mp4" 1920 1080 30 true 1 none (some 20) "h264" true

/-- The multi-audio scenario: audio-capable video background, layer 0 with
audio disabled, layer 1 audio-enabled with composition start 5s. -/
def audioDemo : Media.Composition :=
  let c : Media.Composition := { background := some videoBgAudio }
  let c := c.add (webmFg "a.webm")
  let c := c.add (webmFg "b.webm")
  let c := Media.Composition.layerAudio c 0 false 1
  Media.Composition.layerStart c 1 5

/-- A fresh two-layer composition (webm foregrounds at the given paths) over
the red colour background. -/
def twoLayerComp (pA pB : String) : Media.Composition :=
  let c : Media.Composition := { background := some colorBgRed }
  let c := c.add (webmFg pA)
  c.add (webmFg pB)

/-- The two-layer composition with the second layer's z lowered to 0 so both
layers tie at z = 0. -/
def twoLayerTie (pA pB : String) : Media.Composition :=
  Media.Composition.layerZ (twoLayerComp pA pB) 1 0

/-- A one-layer composition with an explicit duration of 0. -/
def zeroDurComp : Media.Composition :=
  (( { background := some colorBgRed } : Media.Composition).add (webmFg "a.webm")).setDuration 0

/-- A pro-bundle (RGB + mask pair) foreground. -/
def bundleFg : Foreground :=
  { format := .proBundle, primaryPath := "v.mp4", maskPath := some "m.mp4" }

/-- A default layer whose size mode is FIT_WIDTH. -/
def fitWidthLayer : LayerDict :=
  { name := "layer0", fg := webmFg "a.webm", anchor := .center, dx := 0, dy := 0,
    size := { mode := .fitWidth }, opacity := 1, rotateDeg := 0,
    audio_enabled := true, audio_volume := 1, alpha_enabled := true, z := 0 }

/-- The argv built for `zeroDurComp`: no `-t` flag anywhere. -/
def zeroDurArgv : List String :=
  ["ffmpeg", "-y", "-f", "lavfi", "-i", "color=c=#FF0000:size=1920x1080:rate=30",
   "-i", "a.webm", "-filter_complex",
   "[1:v]scale=1920:1080:force_original_aspect_ratio=decrease[layer_0_scale];" ++
     "[layer_0_scale]null[layer_0_final];" ++
     "[0:v][layer_0_final]overlay=x=\x27(W-w)/2\x27:y=\x27(H-h)/2\x27:eof_action=pass[out]",
   "-map", "[out]", "-map", "1:a?", "-c:v", "libx264", "-crf", "18", "-preset",
   "medium", "-pix_fmt", "yuv420p", "OUT.mp4"]

/-! ### Helper lemmas about the string model -/

theorem leadsList_append (p l e : List Char) (h : leadsList p l = true) :
    leadsList p (l ++ e) = true := by
  induction p generalizing l with
  | nil => simp [leadsList]
  | cons a as ih =>
    cases l with
    | nil => simp [leadsList] at h
    | cons b bs =>
      simp only [leadsList, List.cons_append, Bool.and_eq_true] at h ⊢
      exact ⟨h.1, ih bs h.2⟩

theorem leadsList_self (p e : List Char) : leadsList p (p ++ e) = true := by
  induction p with
  | nil => simp [leadsList]
  | cons a as ih => simp [leadsList, ih]

theorem leadsList_refl (p : List Char) : leadsList p p = true := by
  have := leadsList_self p []
  simpa using this

theorem listHas_of_leads (p l : List Char) (h : leadsList p l = true) :
    listHas p l = true := by
  cases l with
  | nil =>
    cases p with
    | nil => simp [listHas]
    | cons a as => simp [leadsList] at h
  | cons b bs => simp [listHas, h]

theorem listHas_append_right (p a b : List Char) (h : listHas p b = true) :
    listHas p (a ++ b) = true := by
  induction a with
  | nil => simpa
  | cons c cs ih => simp [listHas, ih]

theorem listHas_append_left (p a b : List Char) (h : listHas p a = true) :
    listHas p (a ++ b) = true := by
  induction a with
  | nil =>
    cases p with
    | nil =>
      cases b with
      | nil => simp [listHas]
      | cons c cs => simp [listHas, leadsList]
    | cons x xs => simp [listHas] at h
  | cons c cs ih =>
    simp only [listHas, Bool.or_eq_true] at h ⊢
    rcases h with h | h
    · exact Or.inl (leadsList_append _ _ _ h)
    · exact Or.inr (ih h)

theorem strContains_append_right (a b pat : String) (h : strContains b pat = true) :
    strContains (a ++ b) pat = true := by
  unfold strContains at h ⊢
  rw [String.data_append]
  exact listHas_append_right _ _ _ h

theorem strContains_append_left (a b pat : String) (h : strContains a pat = true) :
    strContains (a ++ b) pat = true := by
  unfold strContains at h ⊢
  rw [String.data_append]
  exact listHas_append_left _ _ _ h

theorem strContains_self (pat : String) : strContains pat pat = true :=
  listHas_of_leads _ _ (leadsList_refl pat.data)

/-! ### The per-step output labels never end in the `_final` label -/

theorem notFinal_shape (a b n S : String) (c2 : Char) (tail : List Char)
    (hS : S.data.reverse = ']' :: c2 :: tail) (hc : ('l' == c2) = false) :
    jsEndsWith (a ++ (b ++ (n ++ S))) ("[layer_" ++ (n ++ "_final]")) = false := by
  unfold jsEndsWith
  have hf : ("_final]" : String).data.reverse = [']', 'l', 'a', 'n', 'i', 'f', '_'] := by
    decide
  simp only [String.data_append, List.reverse_append, List.append_assoc, hS, hf]
  simp [leadsList, hc, List.cons_append]

theorem notFinal_timed (a b n : String) :
    jsEndsWith (a ++ (b ++ (n ++ "_timed]"))) ("[layer_" ++ (n ++ "_final]")) = false :=
  notFinal_shape a b n "_timed]" 'd' ['e', 'm', 'i', 't', '_'] (by decide) (by decide)

theorem notFinal_crop (a b n : String) :
    jsEndsWith (a ++ (b ++ (n ++ "_crop]"))) ("[layer_" ++ (n ++ "_final]")) = false :=
  notFinal_shape a b n "_crop]" 'p' ['o', 'r', 'c', '_'] (by decide) (by decide)

theorem notFinal_scale (a b n : String) :
    jsEndsWith (a ++ (b ++ (n ++ "_scale]"))) ("[layer_" ++ (n ++ "_final]")) = false :=
  notFinal_shape a b n "_scale]" 'e' ['l', 'a', 'c', 's', '_'] (by decide) (by decide)

theorem notFinal_rotate (a b n : String) :
    jsEndsWith (a ++ (b ++ (n ++ "_rotate]"))) ("[layer_" ++ (n ++ "_final]")) = false :=
  notFinal_shape a b n "_rotate]" 'e' ['t', 'a', 't', 'o', 'r', '_'] (by decide) (by decide)

theorem notFinal_opacity (a b n : String) :
    jsEndsWith (a ++ (b ++ (n ++ "_opacity]"))) ("[layer_" ++ (n ++ "_final]")) = false :=
  notFinal_shape a b n "_opacity]" 'y' ['t', 'i', 'c', 'a', 'p', 'o', '_'] (by decide)
    (by decide)

theorem notFinal_shape2 (a n S : String) (c2 : Char) (tail : List Char)
    (hS : S.data.reverse = ']' :: c2 :: tail) (hc : ('l' == c2) = false) :
    jsEndsWith (a ++ (n ++ S)) ("[layer_" ++ (n ++ "_final]")) = false := by
  unfold jsEndsWith
  have hf : ("_final]" : String).data.reverse = [']', 'l', 'a', 'n', 'i', 'f', '_'] := by
    decide
  simp only [String.data_append, List.reverse_append, List.append_assoc, hS, hf]
  simp [leadsList, hc, List.cons_append]

theorem notFinalM_timed (a n : String) :
    jsEndsWith (a ++ (n ++ "_timed]")) ("[layer_" ++ (n ++ "_final]")) = false :=
  notFinal_shape2 a n "_timed]" 'd' ['e', 'm', 'i', 't', '_'] (by decide) (by decide)

theorem notFinalM_crop (a n : String) :
    jsEndsWith (a ++ (n ++ "_crop]")) ("[layer_" ++ (n ++ "_final]")) = false :=
  notFinal_shape2 a n "_crop]" 'p' ['o', 'r', 'c', '_'] (by decide) (by decide)

theorem notFinalM_scale (a n : String) :
    jsEndsWith (a ++ (n ++ "_scale]")) ("[layer_" ++ (n ++ "_final]")) = false :=
  notFinal_shape2 a n "_scale]" 'e' ['l', 'a', 'c', 's', '_'] (by decide) (by decide)

theorem notFinalM_rotate (a n : String) :
    jsEndsWith (a ++ (n ++ "_rotate]")) ("[layer_" ++ (n ++ "_final]")) = false :=
  notFinal_shape2 a n "_rotate]" 'e' ['t', 'a', 't', 'o', 'r', '_'] (by decide) (by decide)

theorem notFinalM_opacity (a n : String) :
    jsEndsWith (a ++ (n ++ "_opacity]")) ("[layer_" ++ (n ++ "_final]")) = false :=
  notFinal_shape2 a n "_opacity]" 'y' ['t', 'i', 'c', 'a', 'p', 'o', '_'] (by decide)
    (by decide)

/-! ### Properties of the longest-foreground-duration fold -/

theorem durStep_mono (m : ℚ) (a : LayerDict) : m ≤ Media.Composition.durStep m a := by
  unfold Media.Composition.durStep
  cases h : a.fg.getDuration with
  | none => exact le_refl m
  | some d =>
    dsimp only
    by_cases hc : d ≠ 0 ∧ m < d
    · rw [if_pos hc]; exact le_of_lt hc.2
    · rw [if_neg hc]

theorem le_foldl_durStep (ls : List LayerDict) (m : ℚ) :
    m ≤ ls.foldl Media.Composition.durStep m := by
  induction ls generalizing m with
  | nil => exact le_refl m
  | cons a as ih =>
    exact le_trans (durStep_mono m a) (ih (Media.Composition.durStep m a))

theorem dur_le_foldl (ls : List LayerDict) (m : ℚ) (h0 : 0 ≤ m) :
    ∀ l ∈ ls, ∀ d, l.fg.getDuration = some d →
      d ≤ ls.foldl Media.Composition.durStep m := by
  induction ls generalizing m with
  | nil => intro l hl; simp at hl
  | cons a as ih =>
    intro l hl d hd
    simp only [List.foldl_cons]
    rcases List.mem_cons.mp hl with rfl | hmem
    · have hda : d ≤ Media.Composition.durStep m l := by
        unfold Media.Composition.durStep
        rw [hd]
        dsimp only
        by_cases hc : d ≠ 0 ∧ m < d
        · rw [if_pos hc]
        · rw [if_neg hc]
          by_cases hz : d = 0
          · exact hz ▸ h0
          · have := not_and.mp hc hz
            exact le_of_not_lt this
      exact le_trans hda (le_foldl_durStep as _)
    · exact ih (Media.Composition.durStep m a)
        (le_trans h0 (durStep_mono m a)) l hmem d hd

theorem foldl_durStep_attained (ls : List LayerDict) (m : ℚ) :
    ls.foldl Media.Composition.durStep m = m ∨
    ∃ l ∈ ls, l.fg.getDuration = some (ls.foldl Media.Composition.durStep m) := by
  induction ls generalizing m with
  | nil => exact Or.inl rfl
  | cons a as ih =>
    simp only [List.foldl_cons]
    rcases ih (Media.Composition.durStep m a) with h | ⟨l, hl, hd⟩
    · rw [h]
      unfold Media.Composition.durStep
      cases hda : a.fg.getDuration with
      | none => exact Or.inl rfl
      | some d =>
        dsimp only
        by_cases hc : d ≠ 0 ∧ m < d
        · rw [if_pos hc]
          exact Or.inr ⟨a, List.mem_cons_self a as, hda⟩
        · rw [if_neg hc]
          exact Or.inl rfl
    · exact Or.inr ⟨l, List.mem_cons_of_mem _ hl, hd⟩

theorem foldl_durStep_zero (ls : List LayerDict)
    (h : ∀ l ∈ ls, ∀ d, l.fg.getDuration = some d → d ≤ 0) :
    ls.foldl Media.Composition.durStep 0 = 0 := by
  induction ls with
  | nil => rfl
  | cons a as ih =>
    simp only [List.foldl_cons]
    have hstep : Media.Composition.durStep 0 a = 0 := by
      unfold Media.Composition.durStep
      cases hda : a.fg.getDuration with
      | none => rfl
      | some d =>
        have hd0 := h a (List.mem_cons_self a as) d hda
        dsimp only
        rw [if_neg]
        rintro ⟨hne, hlt⟩
        exact absurd hd0 (not_le.mpr hlt)
    rw [hstep]
    exact ih (fun l hl => h l (List.mem_cons_of_mem _ hl))

/-- **C1** (amended).  Duration resolution follows the strict priority: an
explicit `setDuration` value is always the resolved duration; otherwise a
duration-controlling background with a positive probed duration wins;
otherwise the resolved duration is the longest-foreground rule, which yields
the maximum positive probed duration over the layers (`none` exactly when no
layer has a positive probed duration); and — the amended final clause — when
no explicit override is set and no background/layer source yields a positive
duration, the resolved duration is `none` and no `-t` flag is emitted.  (The
original claim's final clause, quantified over every composition including
explicit negative overrides, is refuted by
`duration_negative_override_emits_flag`.) -/
theorem duration_resolution_priority (c : Media.Composition) :
    (∀ d, c.explicitDuration = some d →
      Media.Composition.getCompositionDuration c = some d)
  ∧ (c.explicitDuration = none →
      ∀ bg d, c.background = some bg → bg.controlsDuration = true →
        bg.getDuration = some d → 0 < d →
        Media.Composition.getCompositionDuration c = some d)
  ∧ (c.explicitDuration = none →
      (∀ bg d, c.background = some bg → bg.controlsDuration = true →
        bg.getDuration = some d → d ≤ 0) →
      Media.Composition.getCompositionDuration c =
        Media.Composition.getLongestForegroundDuration c.layers)
  ∧ (∀ m, Media.Composition.getLongestForegroundDuration c.layers = some m →
      0 < m ∧ (∃ l ∈ c.layers, l.fg.getDuration = some m) ∧
        ∀ l ∈ c.layers, ∀ d, l.fg.getDuration = some d → d ≤ m)
  ∧ (Media.Composition.getLongestForegroundDuration c.layers = none ↔
      ∀ l ∈ c.layers, ∀ d, l.fg.getDuration = some d → d ≤ 0)
  ∧ (Media.Composition.getCompositionDuration c = none →
      Media.Composition.durationLimitArgs c = []) := by
  refine ⟨?_, ?_, ?_, ?_, ?_, ?_⟩
  · intro d h
    unfold Media.Composition.getCompositionDuration
    rw [h]
  · intro hn bg d hbg hc hd hpos
    unfold Media.Composition.getCompositionDuration
    rw [hn, hbg]
    simp [hc, hd, ne_of_gt hpos, hpos]
  · intro hn hbg
    unfold Media.Composition.getCompositionDuration
    rw [hn]
    cases hb : c.background with
    | none => rfl
    | some bg =>
      by_cases hc : bg.controlsDuration = true
      · simp only [hc, if_true]
        cases hd : bg.getDuration with
        | none => rfl
        | some d =>
          have hle : d ≤ 0 := hbg bg d hb hc hd
          dsimp only
          rw [if_neg]
          rintro ⟨_, hlt⟩
          exact absurd hle (not_le.mpr hlt)
      · simp only [Bool.not_eq_true] at hc
        simp [hc]
  · intro m hm
    unfold Media.Composition.getLongestForegroundDuration at hm
    by_cases h0 : 0 < c.layers.foldl Media.Composition.durStep 0
    · rw [if_pos h0] at hm
      have hm' := Option.some.inj hm
      subst hm'
      refine ⟨h0, ?_, ?_⟩
      · rcases foldl_durStep_attained c.layers 0 with h | h
        · exact absurd (h ▸ h0) (lt_irrefl 0)
        · exact h
      · exact fun l hl d hd => dur_le_foldl c.layers 0 le_rfl l hl d hd
    · rw [if_neg h0] at hm
      cases hm
  · constructor
    · intro hnone l hl d hd
      unfold Media.Composition.getLongestForegroundDuration at hnone
      by_cases h0 : 0 < c.layers.foldl Media.Composition.durStep 0
      · rw [if_pos h0] at hnone
        cases hnone
      · have hr0 : c.layers.foldl Media.Composition.durStep 0 = 0 :=
          le_antisymm (not_lt.mp h0) (le_foldl_durStep _ 0)
        have hdr := dur_le_foldl c.layers 0 le_rfl l hl d hd
        rw [hr0] at hdr
        exact hdr
    · intro hall
      unfold Media.Composition.getLongestForegroundDuration
      rw [foldl_durStep_zero c.layers hall]
      simp [lt_irrefl]
  · intro h
    unfold Media.Composition.durationLimitArgs
    rw [h]

/-- **C1** counterexample to the claim as stated: in `durDemoNeg` no source
yields a positive duration (the only source is the explicit override `-1`,
the background is a colour background that does not control duration, and
there are no layers), yet the built argument list does contain the `-t` flag
(`['-t', '-1']`), because the emission test is truthiness, not
positivity. -/
theorem duration_negative_override_emits_flag :
    durDemoNeg.explicitDuration = some (-1)
  ∧ ¬ (0 : ℚ) < -1
  ∧ durDemoNeg.layers = []
  ∧ durDemoNeg.background = some colorBgRed
  ∧ colorBgRed.controlsDuration = false
  ∧ Media.Composition.durationLimitArgs durDemoNeg = ["-t", "-1"] := by
  refine ⟨rfl, by norm_num, rfl, rfl, rfl, by decide⟩

/-- Witness for `duration_resolution_priority`, on the specification's own
scenario: explicit override 7 over a video background of duration 20 and
layers of durations 5 and 3 resolves to 7; dropping the override resolves to
20; switching to a colour background resolves to 5 (the longest layer). -/
theorem duration_resolution_priority_witness :
    Media.Composition.getCompositionDuration durDemoExplicit = some 7
  ∧ Media.Composition.getCompositionDuration durDemoBase = some 20
  ∧ Media.Composition.getCompositionDuration durDemoColor = some 5
  ∧ Media.Composition.durationLimitArgs
      ({ background := some colorBgRed } : Media.Composition) = [] := by
  refine ⟨?_, ?_, ?_, ?_⟩
  · exact (duration_resolution_priority durDemoExplicit).1 7 rfl
  · exact (duration_resolution_priority durDemoBase).2.1 rfl videoBg20 20 rfl rfl
      (by decide) (by norm_num)
  · have h := (duration_resolution_priority durDemoColor).2.2.1 rfl
      (fun bg d hbg hc _ => by
        cases Option.some.inj hbg
        exact absurd hc (by decide))
    rw [h]
    decide
  · have h := (duration_resolution_priority
      ({ background := some colorBgRed } : Media.Composition)).2.2.2.2.2
    exact h (by decide)

/-- **C10**.  The duration-flag emission tests truthiness rather than
definedness: a resolved duration of 0 — in particular an explicit
`setDuration(0)` — emits no `-t` flag (the invocation runs to natural EOF),
while any positive explicit value emits `['-t', d]`.  For the concrete
one-layer composition `zeroDurComp` with `setDuration(0)`, the full built
argument list contains no `-t` token at all. -/
theorem zero_duration_emits_no_flag :
    (∀ c : Media.Composition, c.explicitDuration = some 0 →
      Media.Composition.durationLimitArgs c = [])
  ∧ (∀ (c : Media.Composition) (d : ℚ), c.explicitDuration = some d → 0 < d →
      Media.Composition.durationLimitArgs c = ["-t", q2s d])
  ∧ Media.Composition.buildFFmpegArgv zeroDurComp "OUT.mp4" EncoderProfile.h264Default =
      .ok zeroDurArgv
  ∧ "-t" ∉ zeroDurArgv := by
  refine ⟨?_, ?_, ?_, ?_⟩
  · intro c h
    unfold Media.Composition.durationLimitArgs Media.Composition.getCompositionDuration
    rw [h]
    simp
  · intro c d h hd
    unfold Media.Composition.durationLimitArgs Media.Composition.getCompositionDuration
    rw [h]
    simp [ne_of_gt hd]
  · rfl
  · decide

/-- Witness for `zero_duration_emits_no_flag`: applied to the concrete
compositions with explicit duration 0 (`zeroDurComp`) and explicit duration 7
(`durDemoExplicit`). -/
theorem zero_duration_emits_no_flag_witness :
    Media.Composition.durationLimitArgs zeroDurComp = []
  ∧ Media.Composition.durationLimitArgs durDemoExplicit = ["-t", "7"] := by
  constructor
  · exact zero_duration_emits_no_flag.1 zeroDurComp rfl
  · have h := zero_duration_emits_no_flag.2.1 durDemoExplicit 7 rfl (by norm_num)
    rw [h]
    decide

/-- **C7**.  `subclip` returns a fresh `Foreground` with the same primary,
mask and audio locators and `sourceTrim` set to exactly the new pair; the
receiver is a value that the construction never touches (the embedding is
pure because the source constructs a new object and mutates nothing); and
repeated subclipping overwrites rather than composes:
`a.subclip(s₁,e₁).subclip(s₂,e₂)` has final trim `(s₂,e₂)`. -/
theorem subclip_overwrites_trim (fg : Foreground) (s₁ s₂ : ℚ) (e₁ e₂ : Option ℚ) :
    (fg.subclip s₁ e₁).format = fg.format
  ∧ (fg.subclip s₁ e₁).primaryPath = fg.primaryPath
  ∧ (fg.subclip s₁ e₁).maskPath = fg.maskPath
  ∧ (fg.subclip s₁ e₁).audioPath = fg.audioPath
  ∧ (fg.subclip s₁ e₁).sourceTrim = some (s₁, e₁)
  ∧ ((fg.subclip s₁ e₁).subclip s₂ e₂).sourceTrim = some (s₂, e₂) :=
  ⟨rfl, rfl, rfl, rfl, rfl, rfl⟩

/-- **C8** counterexample: the `ColorBackground` constructor itself performs
no validation — a `ColorBackground` carrying the invalid colour `"red"` is
constructible, and its raw colour flows unchecked into the generated input
arguments.  The regex rejection lives only in the `Background.fromColor`
factory, not in the constructor as the claim (following the spec's §4.2
wording) places it. -/
theorem color_constructor_accepts_invalid :
    (Background.color "red" 1920 1080 30 false 1).getFFmpegInputArgs 1920 1080 30 {} =
      ["-f", "lavfi", "-i", "color=c=red:size=1920x1080:rate=30"]
  ∧ isValidHexColor "red" = false := by
  exact ⟨rfl, by decide⟩

/-- **C8** (amended).  Creating a colour background through the
`Background.fromColor` factory rejects exactly the colour strings not
matching `^#[0-9A-Fa-f]{6}$` and accepts the rest — e.g. it rejects `"red"`,
`"#FFF"` and `"#GGGGGG"` and accepts `"#FF0000"` — but the validation lives
in the factory, not in the `ColorBackground` constructor. -/
theorem fromColor_validates_hex :
    (∀ (s : String) (w h : Nat) (f : ℚ),
      Background.fromColor s w h f =
        if isValidHexColor s then Except.ok (Background.color s w h f false 1)
        else Except.error "Color must be in hex format (#RRGGBB)")
  ∧ Background.fromColor "red" 1920 1080 30 =
      .error "Color must be in hex format (#RRGGBB)"
  ∧ Background.fromColor "#FFF" 1920 1080 30 =
      .error "Color must be in hex format (#RRGGBB)"
  ∧ Background.fromColor "#GGGGGG" 1920 1080 30 =
      .error "Color must be in hex format (#RRGGBB)"
  ∧ Background.fromColor "#FF0000" 1920 1080 30 =
      .ok (Background.color "#FF0000" 1920 1080 30 false 1) := by
  exact ⟨fun s w h f => rfl, rfl, rfl, rfl, rfl⟩

/-- **C3** counterexample: `_getAspectRatioConstraint` maps FIT_WIDTH and
FIT_HEIGHT to `"decrease"`, not to "no constraint", and the scale filter
emitted for a FIT_WIDTH layer does carry an explicit
`force_original_aspect_ratio=decrease` flag (alongside the auto `-1`
dimension), contradicting the claim that no explicit constraint flag is
emitted for these modes. -/
theorem fit_width_constraint_counterexample :
    Media.Composition.getAspectRatioConstraint SizeMode.fitWidth = some "decrease"
  ∧ Media.Composition.getAspectRatioConstraint SizeMode.fitHeight = some "decrease"
  ∧ Media.Composition.getLayerTransformationFilters fitWidthLayer 0 "[1:v]" 1920 1080 =
      ["[1:v]scale=1920:-1:force_original_aspect_ratio=decrease[layer_0_scale]",
       "[layer_0_scale]null[layer_0_final]"] := by
  exact ⟨rfl, rfl, by decide⟩

/-- **C3** (amended).  The aspect-ratio constraint is a pure function of the
size mode with exactly these values: PIXELS, CANVAS_PERCENT, CONTAIN — and
also FIT_WIDTH and FIT_HEIGHT — map to `"decrease"`; COVER maps to
`"increase"`; SCALE maps to no constraint. -/
theorem aspect_constraint_table :
    Media.Composition.getAspectRatioConstraint SizeMode.px = some "decrease"
  ∧ Media.Composition.getAspectRatioConstraint SizeMode.canvasPercent = some "decrease"
  ∧ Media.Composition.getAspectRatioConstraint SizeMode.contain = some "decrease"
  ∧ Media.Composition.getAspectRatioConstraint SizeMode.fitWidth = some "decrease"
  ∧ Media.Composition.getAspectRatioConstraint SizeMode.fitHeight = some "decrease"
  ∧ Media.Composition.getAspectRatioConstraint SizeMode.cover = some "increase"
  ∧ Media.Composition.getAspectRatioConstraint SizeMode.scaleMode = none :=
  ⟨rfl, rfl, rfl, rfl, rfl, rfl, rfl⟩

/-- **C4**.  Evaluation of the multi-audio branch at the failing input
`audioDemo` (an audio-capable video background plus an audio-enabled layer
whose composition start is 5s): the layer's source is correctly delayed by
⌊5·1000⌋ = 5000 ms on both channels and the mixer runs with
`duration=longest`, but the BACKGROUND source `[0:a]` is also delayed by
5000 ms — the `audioInput.layerIndex || i` fallback resolves the background
(whose `layerIndex` is undefined) to its loop position and reads that
layer's `comp_start`.  This contradicts the claim (and §4.4 step 6 of the
spec, and the single-source branch's own foreground-only delay guard). -/
theorem background_audio_delayed_in_multi_mix :
    Media.Composition.audioSection audioDemo =
      .ok (["[2:a]adelay=5000|5000[audio_delayed_0]",
            "[0:a]adelay=5000|5000[audio_delayed_1]",
            "[audio_delayed_0][audio_delayed_1]amix=inputs=2:duration=longest[audio_out]"],
           ["-map", "[audio_out]"]) := by
  rfl

/-- **C5**.  `_getLayerTransformationFilters` emits, for every layer, exactly
the fixed chain described by `transformChainSpec`: (a) timeline shift (reset
PTS then add the composition start, only when the start is > 0), then (b)
crop (only if set), then (c) scale (when a scale target applies), then (d)
rotate (degrees·PI/180, when nonzero), then (e) opacity alpha-multiply (when
≠ 1) — each step reading the previous step's freshly labelled intermediate,
and a final `null` relabelling to `[layer_i_final]` (the label the overlay
step consumes) whenever any step fired. -/
theorem layer_transformation_chain_order (layer : LayerDict) (i : Nat)
    (inp : String) (cw ch : Nat) :
    Media.Composition.getLayerTransformationFilters layer i inp cw ch =
    Media.Composition.transformChainSpec layer i inp cw ch := by
  unfold Media.Composition.getLayerTransformationFilters
    Media.Composition.transformChainSpec
  rcases hsc : Media.Composition.scaleTarget layer.size cw ch with ⟨fired, tw, th⟩
  have hts : ∀ s : ℚ, decide (s ≠ 0 ∧ 0 < s) = decide (0 < s) := by
    intro s
    rcases lt_trichotomy s 0 with h | h | h
    · simp [not_lt_of_lt h, h.ne]
    · simp [h]
    · simp [h, h.ne']
  cases hcs : layer.comp_start with
  | none =>
    cases hcr : layer.crop <;>
    cases fired <;>
    by_cases hr : layer.rotateDeg = 0 <;>
    by_cases ho : layer.opacity = 1 <;>
    simp only [hts, hcs, hcr, hsc, hr, ho, Option.getD, Option.isSome,
      decide_eq_true_eq, if_true, if_false, decide_not] <;>
    (try simp [notFinal_timed, notFinal_crop, notFinal_scale, notFinal_rotate,
      notFinal_opacity, notFinalM_timed, notFinalM_crop, notFinalM_scale,
      notFinalM_rotate, notFinalM_opacity, hr, ho, String.append_assoc])
  | some s =>
    by_cases hs : 0 < s
    · cases hcr : layer.crop <;>
      cases fired <;>
      by_cases hr : layer.rotateDeg = 0 <;>
      by_cases ho : layer.opacity = 1 <;>
      simp only [hts, hcs, hcr, hsc, hr, ho, hs, Option.getD, Option.isSome,
        decide_eq_true_eq, if_true, if_false, decide_not] <;>
      (try simp [notFinal_timed, notFinal_crop, notFinal_scale, notFinal_rotate,
        notFinal_opacity, notFinalM_timed, notFinalM_crop, notFinalM_scale,
        notFinalM_rotate, notFinalM_opacity, hr, ho, hs, ne_of_gt hs,
        String.append_assoc])
    · cases hcr : layer.crop <;>
      cases fired <;>
      by_cases hr : layer.rotateDeg = 0 <;>
      by_cases ho : layer.opacity = 1 <;>
      simp only [hts, hcs, hcr, hsc, hr, ho, hs, Option.getD, Option.isSome,
        decide_eq_true_eq, if_true, if_false, decide_not] <;>
      (try simp [notFinal_timed, notFinal_crop, notFinal_scale, notFinal_rotate,
        notFinal_opacity, notFinalM_timed, notFinalM_crop, notFinalM_scale,
        notFinalM_rotate, notFinalM_opacity, hr, ho, hs,
        String.append_assoc])

/-- **C6**.  `Composition.add` appends a layer whose defaults are
anchor = CENTER, size-mode = CONTAIN, opacity = 1, alpha-enabled,
audio-enabled, and z equal to the number of layers already present; it never
validates the provided name (it appends unconditionally for every name and
every prior state).  For a fresh composition `add A; add B` yields z 0 and
1, and the compositing pass orders layers by z ascending with ties broken by
add-order: the generated instruction stream places A's overlay (into
`[tmp0]`) strictly before B's overlay (into `[out]`), and two layers tied at
z = 0 keep their add order. -/
theorem add_defaults_and_overlay_order :
    (∀ (c : Media.Composition) (fg : Foreground) (name : Option String),
      (c.add fg name).layers.length = c.layers.length + 1
      ∧ ∃ l, (c.add fg name).layers.getLast? = some l
          ∧ l.fg = fg ∧ l.anchor = Anchor.center ∧ l.size.mode = SizeMode.contain
          ∧ l.opacity = 1 ∧ l.alpha_enabled = true ∧ l.audio_enabled = true
          ∧ l.z = c.layers.length)
  ∧ (∀ pA pB : String, ((twoLayerComp pA pB).layers.map (fun l => l.z)) = [0, 1])
  ∧ Media.Composition.videoFilterParts (twoLayerComp "a.webm" "b.webm") 1920 1080 =
      .ok ["[1:v]scale=1920:1080:force_original_aspect_ratio=decrease[layer_0_scale]",
           "[layer_0_scale]null[layer_0_final]",
           "[0:v][layer_0_final]overlay=x=\x27(W-w)/2\x27:y=\x27(H-h)/2\x27:eof_action=pass[tmp0]",
           "[2:v]scale=1920:1080:force_original_aspect_ratio=decrease[layer_1_scale]",
           "[layer_1_scale]null[layer_1_final]",
           "[tmp0][layer_1_final]overlay=x=\x27(W-w)/2\x27:y=\x27(H-h)/2\x27:eof_action=pass[out]"]
  ∧ (∀ pA pB : String,
      ((Media.Composition.sortLayersByZ (twoLayerTie pA pB).layers.enum).map
        Prod.fst) = [0, 1]) := by
  refine ⟨?_, ?_, ?_, ?_⟩
  · intro c fg name
    constructor
    · simp [Media.Composition.add]
    · unfold Media.Composition.add
      dsimp only
      exact ⟨_, List.getLast?_concat _, rfl, rfl, rfl, rfl, rfl, rfl, rfl⟩
  · intro pA pB
    rfl
  · rfl
  · intro pA pB
    rfl

/-- **C2**.  Evaluation of the normalization-filter generator for RGB+mask
(pro_bundle) foregrounds: for EVERY pro-bundle foreground (the `Foreground`
record has no "soft"/"matte" field to branch on), the alpha-enabled filter
graph contains the hard binary-threshold expression
`geq='if(gte(lum(X,Y),128),255,0)'` and an `alphamerge` step.  No
configuration reaches a soft (unthresholded) variant, contradicting the
claim, the repository's own unit tests (`tests/unit/media.test.ts`, matte
suite) and CHANGELOG v0.1.7. -/
theorem bundle_filters_always_hard_threshold
    (fg : Foreground) (label : String) (im : List (String × Nat))
    (h : fg.format = TransparentFormat.proBundle) :
    fg.getFFmpegFilters label im true =
      Except.ok (Foreground.getBundleFilters label im true)
  ∧ (∃ f ∈ Foreground.getBundleFilters label im true,
      strContains f Foreground.thresholdExpr = true)
  ∧ (∃ f ∈ Foreground.getBundleFilters label im true,
      strContains f "alphamerge" = true) := by
  refine ⟨?_, ?_, ?_⟩
  · unfold Foreground.getFFmpegFilters
    rw [h]
  · refine ⟨"[" ++ label ++ "_mask_gray]" ++ Foreground.thresholdExpr ++
      "[" ++ label ++ "_binary_mask]", ?_, ?_⟩
    · exact List.mem_cons_of_mem _ (List.mem_cons_of_mem _ (List.mem_cons_self _ _))
    · exact strContains_append_left _ _ _ (strContains_append_left _ _ _
        (strContains_append_left _ _ _ (strContains_append_right _ _ _
          (strContains_self _))))
  · refine ⟨"[" ++ label ++ "_rgba][" ++ label ++ "_binary_mask]alphamerge[" ++
      label ++ "_merged]", ?_, ?_⟩
    · exact List.mem_cons_of_mem _ (List.mem_cons_of_mem _
        (List.mem_cons_of_mem _ (List.mem_cons_self _ _)))
    · exact strContains_append_left _ _ _ (strContains_append_left _ _ _
        (strContains_append_right _ _ _ (by decide)))

/-- Witness for `bundle_filters_always_hard_threshold`: the concrete
RGB+mask foreground `bundleFg` with the input map of a first layer. -/
theorem bundle_filters_always_hard_threshold_witness :
    bundleFg.getFFmpegFilters "layer_0" [("layer_0_rgb", 1), ("layer_0_mask", 2)] true =
      Except.ok (Foreground.getBundleFilters "layer_0"
        [("layer_0_rgb", 1), ("layer_0_mask", 2)] true)
  ∧ (∃ f ∈ Foreground.getBundleFilters "layer_0"
        [("layer_0_rgb", 1), ("layer_0_mask", 2)] true,
      strContains f Foreground.thresholdExpr = true) := by
  have h := bundle_filters_always_hard_threshold bundleFg "layer_0"
    [("layer_0_rgb", 1), ("layer_0_mask", 2)] rfl
  exact ⟨h.1, h.2.1⟩

/-- **C9**.  `Foreground.fromFile` infers the route from the (lower-cased)
file extension: `.webm → fromWebmVp9` (direct-alpha webm_vp9),
`.mov → fromMovProres`, `.zip → fromProBundleZip` (pro-bundle archive
extraction), `.mp4 → fromStackedVideo`; any other extension throws an error
whose message names all four supported extensions. -/
theorem fromFile_extension_dispatch :
    (∀ p, Foreground.getFileExtension p = ".webm" →
      Foreground.fromFile p = .ok Foreground.FromFileRoute.webmVp9Route)
  ∧ (∀ p, Foreground.getFileExtension p = ".mov" →
      Foreground.fromFile p = .ok Foreground.FromFileRoute.movProresRoute)
  ∧ (∀ p, Foreground.getFileExtension p = ".zip" →
      Foreground.fromFile p = .ok Foreground.FromFileRoute.proBundleZipRoute)
  ∧ (∀ p, Foreground.getFileExtension p = ".mp4" →
      Foreground.fromFile p = .ok Foreground.FromFileRoute.stackedVideoRoute)
  ∧ (∀ p, Foreground.getFileExtension p ∉
        ([".webm", ".mov", ".zip", ".mp4"] : List String) →
      Foreground.fromFile p =
        .error (Foreground.fromFileError p (Foreground.getFileExtension p))
      ∧ strContains
          (Foreground.fromFileError p (Foreground.getFileExtension p)) ".webm" = true
      ∧ strContains
          (Foreground.fromFileError p (Foreground.getFileExtension p)) ".mov" = true
      ∧ strContains
          (Foreground.fromFileError p (Foreground.getFileExtension p)) ".mp4" = true
      ∧ strContains
          (Foreground.fromFileError p (Foreground.getFileExtension p)) ".zip" = true) := by
  refine ⟨?_, ?_, ?_, ?_, ?_⟩
  · intro p h
    simp [Foreground.fromFile, h]
  · intro p h
    simp [Foreground.fromFile, h]
  · intro p h
    simp [Foreground.fromFile, h]
  · intro p h
    simp [Foreground.fromFile, h]
  · intro p h
    have h1 : ¬ Foreground.getFileExtension p = ".webm" := fun he => h (by rw [he]; simp)
    have h2 : ¬ Foreground.getFileExtension p = ".mov" := fun he => h (by rw [he]; simp)
    have h3 : ¬ Foreground.getFileExtension p = ".zip" := fun he => h (by rw [he]; simp)
    have h4 : ¬ Foreground.getFileExtension p = ".mp4" := fun he => h (by rw [he]; simp)
    refine ⟨?_, ?_, ?_, ?_, ?_⟩
    · simp [Foreground.fromFile, h1, h2, h3, h4]
    · unfold Foreground.fromFileError
      exact strContains_append_right _ _ _ (by decide)
    · unfold Foreground.fromFileError
      exact strContains_append_right _ _ _ (by decide)
    · unfold Foreground.fromFileError
      exact strContains_append_right _ _ _ (by decide)
    · unfold Foreground.fromFileError
      exact strContains_append_right _ _ _ (by decide)

/-- Witness for `fromFile_extension_dispatch`: the four supported extensions
(including an upper-case one, lower-cased by the extension parser) route to
their factories, and `.avi` raises the error naming the supported set. -/
theorem fromFile_extension_dispatch_witness :
    Foreground.fromFile "clip.webm" = .ok Foreground.FromFileRoute.webmVp9Route
  ∧ Foreground.fromFile "clip.MOV" = .ok Foreground.FromFileRoute.movProresRoute
  ∧ Foreground.fromFile "clip.zip" = .ok Foreground.FromFileRoute.proBundleZipRoute
  ∧ Foreground.fromFile "clip.mp4" = .ok Foreground.FromFileRoute.stackedVideoRoute
  ∧ Foreground.fromFile "clip.avi" =
      .error (Foreground.fromFileError "clip.avi" ".avi")
  ∧ strContains (Foreground.fromFileError "clip.avi" ".avi") ".webm" = true := by
  refine ⟨?_, ?_, ?_, ?_, ?_, ?_⟩
  · exact fromFile_extension_dispatch.1 "clip.webm" (by decide)
  · exact fromFile_extension_dispatch.2.1 "clip.MOV" (by decide)
  · exact fromFile_extension_dispatch.2.2.1 "clip.zip" (by decide)
  · exact fromFile_extension_dispatch.2.2.2.1 "clip.mp4" (by decide)
  · have h := (fromFile_extension_dispatch.2.2.2.2 "clip.avi" (by decide)).1
    rw [h, show Foreground.getFileExtension "clip.avi" = ".avi" from by decide]
  · have h := (fromFile_extension_dispatch.2.2.2.2 "clip.avi" (by decide)).2.1
    rw [show Foreground.getFileExtension "clip.avi" = ".avi" from by decide] at h
    exact h
